import Mathlib

/-!
Shallow embedding of the rlox tree-walking Lox interpreter
(src/token.rs, src/scanner.rs, src/parser.rs, src/expression.rs,
src/statement.rs, src/environment.rs, src/interpreter.rs, src/lox.rs).

Modelling conventions:
* Rust `f64` numbers are modelled as `ℚ`.  Every claim under study concerns
  control flow / dispatch (division-by-zero interception, type dispatch,
  scope handling) or small integral constants, never floating-point rounding,
  so an exact numeric field is a faithful stand-in.
* Rust panics (`unreachable!()`, `.unwrap()`, `.expect(..)`, and the
  out-of-bounds `Vec` index reached through `previous()` when
  `current == 0`) are modelled by the `Outcome.panicked` constructor
  (or by `none` for `Option`-valued helpers).
* The scanner's and parser's `while` loops are embedded as fuel-indexed
  recursion; running out of fuel is the separate constructor
  `Outcome.fuelOut`, never confused with a panic or an error.
* `Environment.scopes` is a Rust `Vec<Scope>` whose *last* element is the
  innermost scope; every access iterates with `.rev()`, pushes and pops at
  the end.  We store the same stack with the *head* as the innermost scope,
  so `create_scope` is `cons`, `drop_scope` is `tail` (Vec::pop on an empty
  vector is a no-op, as is `List.tail []`) and the `.rev()` iterations of
  `get`/`assign` become plain head-first traversals.
* Rust `HashMap<String, LiteralValue>` is modelled as an association list
  with insert-replaces-existing-key semantics (`Scope.insert`).
-/

namespace Rlox

/-- `TokenType` from src/token.rs. -/
inductive TokenType where
  | LeftParen | RightParen | LeftBrace | RightBrace
  | Comma | Dot | Minus | Plus | Semicolon | Slash | Star
  | Bang | BangEqual | Equal | EqualEqual
  | Greater | GreaterEqual | Less | LessEqual
  | Identifier | String | Number
  | And | Class | Else | False | Func | For | If | Nil | Or
  | Print | Return | Super | This | True | Var | While
  | Eof | Invalid | Blank
deriving DecidableEq

/-- The `Display` impl for `TokenType` in src/token.rs. -/
def displayTokenType : TokenType → String
  | .LeftParen => "(" | .RightParen => ")" | .LeftBrace => "\x7b" | .RightBrace => "\x7d"
  | .Comma => "," | .Dot => "." | .Minus => "-" | .Plus => "+"
  | .Semicolon => ";" | .Slash => "/" | .Star => "*"
  | .Bang => "!" | .BangEqual => "!=" | .Equal => "=" | .EqualEqual => "=="
  | .Greater => ">" | .GreaterEqual => ">=" | .Less => "<" | .LessEqual => "<="
  | .Identifier => "Identifier" | .String => "String" | .Number => "Number"
  | .And => "&&" | .Class => "class" | .Else => "else" | .False => "false"
  | .Func => "func" | .For => "for" | .If => "if" | .Nil => "nil" | .Or => "or"
  | .Print => "print" | .Return => "return" | .Super => "super" | .This => "this"
  | .True => "true" | .Var => "var" | .While => "while"
  | .Eof => "Eof" | .Invalid => "Invalid" | .Blank => "Blank"

/-- `Token` from src/token.rs (`r#type`, `lexeme`, `line`). -/
structure Token where
  type : TokenType
  lexeme : String
  line : Nat
deriving DecidableEq

/-- `LiteralValue` from src/expression.rs (`Num(f64)` modelled over `ℚ`). -/
inductive LiteralValue where
  | Num (n : ℚ)
  | Str (s : String)
  | Bool (b : Bool)
  | Nil
deriving DecidableEq

/-- Four-way outcome of running embedded code: normal value, the Rust `Err`
payload, a Rust panic, or fuel exhaustion of the embedding (never produced by
the modelled program itself). -/
inductive Outcome (ε : Type) (α : Type) where
  | ok (a : α)
  | err (e : ε)
  | panicked
  | fuelOut
deriving DecidableEq

/-- `RuntimeError` from src/error.rs. -/
structure RuntimeError where
  message : String
deriving DecidableEq

/-- `ParseError` from src/error.rs. -/
structure ParseError where
  message : String
deriving DecidableEq

/-- `LoxError` from src/error.rs. -/
inductive LoxError where
  | TokenError
  | ParseError (e : ParseError)
  | RuntimeError (e : RuntimeError)
deriving DecidableEq

/-- One `Scope`: the `HashMap<String, LiteralValue>` as an association list. -/
abbrev Scope := List (String × LiteralValue)

/-- `HashMap::insert`: replace the binding if the key is present, otherwise
add a new one. -/
def Scope.insert (name : String) (v : LiteralValue) : Scope → Scope
  | [] => [(name, v)]
  | (k, w) :: rest =>
    if k = name then (name, v) :: rest else (k, w) :: Scope.insert name v rest

/-- `HashMap::get`. -/
def Scope.get (s : Scope) (name : String) : Option LiteralValue :=
  match s with
  | [] => none
  | (k, w) :: rest => if k = name then some w else Scope.get rest name

/-- `HashMap::contains_key`. -/
def Scope.containsKey (s : Scope) (name : String) : Bool :=
  (Scope.get s name).isSome

/-- `Environment` from src/environment.rs: the scope stack, head = innermost
scope (the last element of the Rust `Vec`). -/
abbrev Environment := List Scope

/-- `Environment::new()`: just the global scope. -/
def Environment.new : Environment := [[]]

/-- `Environment::get`: iterate the scopes innermost-first (`.rev()` in Rust);
error if no scope binds the name. -/
def Environment.get (env : Environment) (name : String) :
    Outcome RuntimeError LiteralValue :=
  match env with
  | [] => .err ⟨"Undefined variable `" ++ name ++ "`."⟩
  | s :: rest =>
    match Scope.get s name with
    | some v => .ok v
    | none => Environment.get rest name

/-- `Environment::define`: insert into the innermost scope; the Rust
`.expect("Interpretor must have a scope.")` panic on an empty scope stack is
`none`. -/
def Environment.define (env : Environment) (name : String) (v : LiteralValue) :
    Option Environment :=
  match env with
  | [] => none
  | s :: rest => some (Scope.insert name v s :: rest)

/-- Helper for `Environment::assign`: find the innermost scope already
containing the key and insert there; `none` if no scope contains it. -/
def Environment.assignAux (name : String) (v : LiteralValue) :
    List Scope → Option (List Scope)
  | [] => none
  | s :: rest =>
    if Scope.containsKey s name then some (Scope.insert name v s :: rest)
    else (Environment.assignAux name v rest).map (s :: ·)

/-- `Environment::assign`: rebind in the innermost scope that already defines
the name, else an undefined-variable error; the environment is returned
alongside the result (unchanged in the error case, as in Rust where the
mutation simply never happens). -/
def Environment.assign (env : Environment) (name : Token) (v : LiteralValue) :
    Outcome RuntimeError Unit × Environment :=
  match Environment.assignAux name.lexeme v env with
  | some env' => (.ok (), env')
  | none => (.err ⟨"Undefined variable `" ++ name.lexeme ++ "`."⟩, env)

/-- `Environment::create_scope`. -/
def Environment.create_scope (env : Environment) : Environment := [] :: env

/-- `Environment::drop_scope` (`Vec::pop`, a no-op on an empty stack). -/
def Environment.drop_scope (env : Environment) : Environment := env.tail

/-- `Expr` from src/expression.rs, with the wrapper structs
(`BinaryExpr`, `UnaryExpr`, `GroupingExpr`, `LiteralExpr`, `VariableExpr`,
`AssignExpr`) flattened into constructor fields. -/
inductive Expr where
  | Binary (left : Expr) (operator : Token) (right : Expr)
  | Unary (operator : Token) (expression : Expr)
  | Grouping (expression : Expr)
  | Literal (token : Token)
  | Variable (var : Token)
  | Assign (lvar : Token) (value : Expr)
deriving DecidableEq

/-- `Stmt` from src/statement.rs, with the wrapper structs (`VarDecStmt`,
`PrintStmt`, `ExprStmt`, `Block`) flattened; the constructor for
`Stmt::Expr(ExprStmt)` is named `ExprStmt` to avoid shadowing `Expr`. -/
inductive Stmt where
  | Var (var_name : String) (init : Option Expr)
  | Print (expr : Expr)
  | ExprStmt (expr : Expr)
  | Block (stmts : List Stmt)

/-- The `ToString` impls for `Expr` and its variants in src/expression.rs. -/
def exprToString : Expr → String
  | .Binary l op r =>
    "(" ++ op.lexeme ++ " " ++ exprToString l ++ " " ++ exprToString r ++ ")"
  | .Unary op e => "(" ++ op.lexeme ++ " " ++ exprToString e ++ ")"
  | .Grouping e => "(grouping " ++ exprToString e ++ ")"
  | .Literal t => t.lexeme
  | .Variable t => t.lexeme
  | .Assign t e => t.lexeme ++ " = " ++ exprToString e

/-- Numeric value of a run of ASCII digits. -/
def digitsToNat (cs : List Char) : Nat :=
  cs.foldl (fun n c => n * 10 + (c.toNat - 48)) 0

/-- Model of Rust's `str::parse::<f64>()` restricted to the lexeme shapes the
scanner can produce (a run of digits with at most one embedded dot, e.g.
`"114"`, `"114.514"`, `"114."`), which `f64::from_str` always accepts; any
other shape is `none` (parse failure). -/
def parseNumLexeme (s : String) : Option ℚ :=
  let cs := s.data
  let intPart := cs.takeWhile Char.isDigit
  let rest := cs.dropWhile Char.isDigit
  match rest with
  | [] => if intPart.isEmpty then none else some (digitsToNat intPart : ℚ)
  | '.' :: frac =>
    if frac.all Char.isDigit && !(intPart.isEmpty && frac.isEmpty) then
      some ((digitsToNat intPart : ℚ) + (digitsToNat frac : ℚ) / (10 : ℚ) ^ frac.length)
    else none
  | _ => none

/-- `LiteralExpr::get_literal_value` from src/expression.rs.  `none` models a
panic: the wildcard arm is `unreachable!()` (note: it has no case for a
`Nil` token), and the `.unwrap()` on the number parse. -/
def get_literal_value (token : Token) : Option LiteralValue :=
  match token.type with
  | .String => some (.Str token.lexeme)
  | .Number => (parseNumLexeme token.lexeme).map (fun n => .Num n)
  | .True => some (.Bool true)
  | .False => some (.Bool false)
  | _ => none

/-- `Display` for a number (Rust `{}` on `f64`): integral values print with no
decimal point, which is all the claims ever print; the non-integral branch is
a stand-in (Rust's shortest-roundtrip float formatting is not modelled, and no
claim exercises it). -/
def displayNum (q : ℚ) : String :=
  if q.den = 1 then toString q.num
  else toString q.num ++ "/" ++ toString q.den

/-- The `Display` impl for `LiteralValue` in src/expression.rs. -/
def displayLiteralValue : LiteralValue → String
  | .Num n => displayNum n
  | .Str s => s
  | .Bool b => if b then "true" else "false"
  | .Nil => "nil"

/-- The derived `Debug` of `LiteralValue` (used in the unary type-error
message; the float formatting is approximated, no claim reads it). -/
def debugLiteralValue : LiteralValue → String
  | .Num n => "Num(" ++ displayNum n ++ ")"
  | .Str s => "Str(\"" ++ s ++ "\")"
  | .Bool b => "Bool(" ++ (if b then "true" else "false") ++ ")"
  | .Nil => "Nil"

/-- `Interpreter::is_truthy` from src/interpreter.rs. -/
def is_truthy : LiteralValue → Bool
  | .Num n => if n = 0 then false else true
  | .Str s => if s = "" then false else true
  | .Bool b => b
  | .Nil => true

/-- The guard of the first arm of the match in
`Interpreter::evaluate_binary`: `(Some(_), Some(LiteralValue::Num(0.0)),
TokenType::Slash)` (a literal float pattern in Rust is an equality test, so
this is `right == 0`). -/
def isDivByZero (left right : Option LiteralValue) (op : TokenType) : Bool :=
  match left, right, op with
  | some _, some (.Num r), .Slash => decide (r = 0)
  | _, _, _ => false

/-- The match of `Interpreter::evaluate_binary` on the two evaluated operands
and the operator type.  The division-by-zero arm comes first; the Rust
or-pattern of the ten numeric operators is expanded into ten arms (its inner
`_ => unreachable!()` is dead code under the expansion); then string
concatenation, the three no-value arms, and the catch-all error.  The strings
`leftStr`, `rightStr`, `exprStr` are `expr.left.to_string()`,
`expr.right.to_string()`, `expr.to_string()`, used only in error messages. -/
def evaluate_binary_op (leftStr rightStr exprStr : String)
    (left right : Option LiteralValue) (op : TokenType) :
    Outcome RuntimeError LiteralValue :=
  if isDivByZero left right op then
    .err ⟨"Divided by zero is not allowed."⟩
  else
    match left, right, op with
    | some (.Num a), some (.Num b), .Plus => .ok (.Num (a + b))
    | some (.Num a), some (.Num b), .Minus => .ok (.Num (a - b))
    | some (.Num a), some (.Num b), .Slash => .ok (.Num (a / b))
    | some (.Num a), some (.Num b), .Star => .ok (.Num (a * b))
    | some (.Num a), some (.Num b), .EqualEqual => .ok (.Bool (decide (a = b)))
    | some (.Num a), some (.Num b), .BangEqual => .ok (.Bool (decide (a ≠ b)))
    | some (.Num a), some (.Num b), .Greater => .ok (.Bool (decide (a > b)))
    | some (.Num a), some (.Num b), .GreaterEqual => .ok (.Bool (decide (a ≥ b)))
    | some (.Num a), some (.Num b), .Less => .ok (.Bool (decide (a < b)))
    | some (.Num a), some (.Num b), .LessEqual => .ok (.Bool (decide (a ≤ b)))
    | some (.Str a), some (.Str b), .Plus => .ok (.Str (a ++ b))
    | none, some _, _ =>
      .err ⟨"Expression `" ++ leftStr ++ "` has no value."⟩
    | some _, none, _ =>
      .err ⟨"Expression `" ++ rightStr ++ "` has no value."⟩
    | none, none, _ =>
      .err ⟨"Expression `" ++ leftStr ++ "` and `" ++ rightStr ++
            "` has no value."⟩
    | _, _, _ =>
      .err ⟨"Expression `" ++ exprStr ++ "` can not be interpreted."⟩

/-- The match of `Interpreter::evaluate_unary` on the evaluated operand. -/
def evaluate_unary_op (operator : Token) (exprStr : String)
    (right : Option LiteralValue) : Outcome RuntimeError LiteralValue :=
  match right with
  | some right =>
    match operator.type with
    | .Minus =>
      match right with
      | .Num n => .ok (.Num (-n))
      | _ => .err ⟨"Operand must be number, not `" ++
                   debugLiteralValue right ++ "`"⟩
    | .Bang => .ok (.Bool (!is_truthy right))
    | _ => .err ⟨"Invalid unary operator `" ++ operator.lexeme ++ "`"⟩
  | none => .err ⟨"Expression " ++ exprStr ++ " has no value."⟩

/-- The `.map(|value| Some(value))` applied to the results of
`evaluate_binary` / `evaluate_unary` inside `Interpreter::evaluate`. -/
def mapSome : Outcome RuntimeError LiteralValue →
    Outcome RuntimeError (Option LiteralValue)
  | .ok v => .ok (some v)
  | .err e => .err e
  | .panicked => .panicked
  | .fuelOut => .fuelOut

/-- `Interpreter::evaluate` from src/interpreter.rs.  The mutated
`self.environment` is threaded explicitly and returned on every path (on an
error the mutations performed so far persist, as in Rust).  The bodies of
`evaluate_binary` / `evaluate_unary` are inlined into the `Binary` / `Unary`
arms so the recursion is structural on `Expr`; the stand-alone wrappers
`evaluate_binary` / `evaluate_unary` below mirror the source methods and
agree with these arms definitionally. -/
def evaluate (env : Environment) :
    Expr → Outcome RuntimeError (Option LiteralValue) × Environment
  | .Binary l op r =>
    match evaluate env l with
    | (.ok lv, env1) =>
      match evaluate env1 r with
      | (.ok rv, env2) =>
        (mapSome (evaluate_binary_op (exprToString l) (exprToString r)
          (exprToString (.Binary l op r)) lv rv op.type), env2)
      | (.err e, env2) => (.err e, env2)
      | (.panicked, env2) => (.panicked, env2)
      | (.fuelOut, env2) => (.fuelOut, env2)
    | (.err e, env1) => (.err e, env1)
    | (.panicked, env1) => (.panicked, env1)
    | (.fuelOut, env1) => (.fuelOut, env1)
  | .Unary op e =>
    match evaluate env e with
    | (.ok rv, env1) => (mapSome (evaluate_unary_op op (exprToString e) rv), env1)
    | (.err er, env1) => (.err er, env1)
    | (.panicked, env1) => (.panicked, env1)
    | (.fuelOut, env1) => (.fuelOut, env1)
  | .Grouping e => evaluate env e
  | .Literal t =>
    match get_literal_value t with
    | some v => (.ok (some v), env)
    | none => (.panicked, env)
  | .Variable t =>
    match Environment.get env t.lexeme with
    | .ok v => (.ok (some v), env)
    | .err e => (.err e, env)
    | .panicked => (.panicked, env)
    | .fuelOut => (.fuelOut, env)
  | .Assign lvar e =>
    match evaluate env e with
    | (.ok (some v), env') =>
      match Environment.assign env' lvar v with
      | (.ok _, env'') => (.ok (some v), env'')
      | (.err er, env'') => (.err er, env'')
      | (.panicked, env'') => (.panicked, env'')
      | (.fuelOut, env'') => (.fuelOut, env'')
    | (.ok none, env') =>
      (.err ⟨"Expression `" ++ exprToString e ++ "` has no value."⟩, env')
    | (.err er, env') => (.err er, env')
    | (.panicked, env') => (.panicked, env')
    | (.fuelOut, env') => (.fuelOut, env')

/-- `Interpreter::evaluate_binary`: evaluate left, then right, then apply the
operand/operator match (non-recursive wrapper; `evaluate`'s `Binary` arm is
`mapSome` of this). -/
def evaluate_binary (env : Environment) (l : Expr) (op : Token) (r : Expr) :
    Outcome RuntimeError LiteralValue × Environment :=
  match evaluate env l with
  | (.ok lv, env1) =>
    match evaluate env1 r with
    | (.ok rv, env2) =>
      (evaluate_binary_op (exprToString l) (exprToString r)
        (exprToString (.Binary l op r)) lv rv op.type, env2)
    | (.err e, env2) => (.err e, env2)
    | (.panicked, env2) => (.panicked, env2)
    | (.fuelOut, env2) => (.fuelOut, env2)
  | (.err e, env1) => (.err e, env1)
  | (.panicked, env1) => (.panicked, env1)
  | (.fuelOut, env1) => (.fuelOut, env1)

/-- `Interpreter::evaluate_unary`: evaluate the operand, then apply the
operator match (non-recursive wrapper). -/
def evaluate_unary (env : Environment) (op : Token) (e : Expr) :
    Outcome RuntimeError LiteralValue × Environment :=
  match evaluate env e with
  | (.ok rv, env1) => (evaluate_unary_op op (exprToString e) rv, env1)
  | (.err er, env1) => (.err er, env1)
  | (.panicked, env1) => (.panicked, env1)
  | (.fuelOut, env1) => (.fuelOut, env1)

mutual

/-- `Interpreter::execute` from src/interpreter.rs.  State `(environment,
output lines)` is threaded explicitly; `writeln!` to the output buffer cannot
fail.  In the `Block` arm `create_scope` runs first, then the statements, and
`drop_scope` runs only after all of them returned `Ok` — the `?` inside the
loop returns early, skipping the `drop_scope`, exactly as in the source. -/
def execute (env : Environment) (out : List String) :
    Stmt → Outcome RuntimeError Unit × Environment × List String
  | .Print stmt =>
    match evaluate env stmt with
    | (.ok none, env') =>
      (.err ⟨"Expression " ++ exprToString stmt ++
             " has no value and cannot be printed!"⟩, env', out)
    | (.ok (some v), env') => (.ok (), env', out ++ [displayLiteralValue v])
    | (.err e, env') => (.err e, env', out)
    | (.panicked, env') => (.panicked, env', out)
    | (.fuelOut, env') => (.fuelOut, env', out)
  | .ExprStmt stmt =>
    match evaluate env stmt with
    | (.ok _, env') => (.ok (), env', out)
    | (.err e, env') => (.err e, env', out)
    | (.panicked, env') => (.panicked, env', out)
    | (.fuelOut, env') => (.fuelOut, env', out)
  | .Var name init =>
    match init with
    | some initExpr =>
      match evaluate env initExpr with
      | (.ok (some v), env') =>
        match Environment.define env' name v with
        | some env'' => (.ok (), env'', out)
        | none => (.panicked, env', out)
      | (.ok none, env') =>
        (.err ⟨"Expression `" ++ exprToString initExpr ++
               "` has no value."⟩, env', out)
      | (.err e, env') => (.err e, env', out)
      | (.panicked, env') => (.panicked, env', out)
      | (.fuelOut, env') => (.fuelOut, env', out)
    | none =>
      match Environment.define env name .Nil with
      | some env' => (.ok (), env', out)
      | none => (.panicked, env, out)
  | .Block stmts =>
    match execute_list (Environment.create_scope env) out stmts with
    | (.ok _, env', out') => (.ok (), Environment.drop_scope env', out')
    | (.err e, env', out') => (.err e, env', out')
    | (.panicked, env', out') => (.panicked, env', out')
    | (.fuelOut, env', out') => (.fuelOut, env', out')

/-- The `for stmt in stmts { self.execute(stmt)?; }` loop inside the `Block`
arm of `Interpreter::execute`. -/
def execute_list (env : Environment) (out : List String) :
    List Stmt → Outcome RuntimeError Unit × Environment × List String
  | [] => (.ok (), env, out)
  | s :: rest =>
    match execute env out s with
    | (.ok _, env', out') => execute_list env' out' rest
    | (.err e, env', out') => (.err e, env', out')
    | (.panicked, env', out') => (.panicked, env', out')
    | (.fuelOut, env', out') => (.fuelOut, env', out')

end

/-- `preserved_word` from src/scanner.rs: the fixed keyword table. -/
def preserved_word (token : String) (line : Nat) : Option Token :=
  match token with
  | "and" => some ⟨.And, "and", line⟩
  | "class" => some ⟨.Class, "class", line⟩
  | "else" => some ⟨.Else, "else", line⟩
  | "false" => some ⟨.False, "false", line⟩
  | "for" => some ⟨.For, "for", line⟩
  | "func" => some ⟨.Func, "func", line⟩
  | "if" => some ⟨.If, "if", line⟩
  | "nil" => some ⟨.Nil, "nil", line⟩
  | "or" => some ⟨.Or, "or", line⟩
  | "print" => some ⟨.Print, "print", line⟩
  | "return" => some ⟨.Return, "return", line⟩
  | "super" => some ⟨.Super, "super", line⟩
  | "this" => some ⟨.This, "this", line⟩
  | "true" => some ⟨.True, "true", line⟩
  | "var" => some ⟨.Var, "var", line⟩
  | "while" => some ⟨.While, "while", line⟩
  | _ => none

/-- The alphanumeric test of `Scanner::identifier` (Rust
`char::is_alphanumeric`; ASCII-faithful, which covers every claim input). -/
def isAlphanumericCh (c : Char) : Bool := c.isAlphanum

/-- `Scanner::identifier` from src/scanner.rs: starting at `current`, consume
while alphanumeric (the `while let` loop over `chars().nth(current)` is the
`takeWhile` of the remaining characters), then classify against the keyword
table.  Returns (token, new `current`). -/
def identifier (src : List Char) (current line : Nat) : Token × Nat :=
  let run := (src.drop current).takeWhile isAlphanumericCh
  let lexeme := String.mk run
  (match preserved_word lexeme line with
   | some t => t
   | none => ⟨.Identifier, lexeme, line⟩, current + run.length)

/-- The digit/dot consuming loop of `Scanner::number` (`dot_consumed` starts
false; digits always consumed, one dot allowed). -/
def numberRun : List Char → Bool → List Char
  | [], _ => []
  | c :: rest, dotConsumed =>
    if c.isDigit then c :: numberRun rest dotConsumed
    else if c = '.' && !dotConsumed then c :: numberRun rest true
    else []

/-- `Scanner::number` from src/scanner.rs.  Returns (token, new `current`). -/
def number (src : List Char) (current line : Nat) : Token × Nat :=
  let run := numberRun (src.drop current) false
  (⟨.Number, String.mk run, line⟩, current + run.length)

/-- The character loop of `Scanner::string`: a newline bumps the line counter
and is not pushed into the lexeme; any other non-quote character is pushed;
the loop stops after consuming the closing quote (or at end of input, in
which case the unterminated lexeme is still returned).  Returns
(lexeme, consumed count, line increase). -/
def stringRun : List Char → List Char × Nat × Nat
  | [] => ([], 0, 0)
  | c :: rest =>
    if c = '"' then ([], 1, 0)
    else
      let (lex, n, dl) := stringRun rest
      if c = '\n' then (lex, n + 1, dl + 1) else (c :: lex, n + 1, dl)

/-- `Scanner::string` from src/scanner.rs: skip the opening quote, then run
the loop.  Returns (token, new `current`, new `line`); the token carries the
line value reached after the loop, as in the source. -/
def stringTok (src : List Char) (current line : Nat) : Token × Nat × Nat :=
  let (lex, n, dl) := stringRun (src.drop (current + 1))
  (⟨.String, String.mk lex, line + dl⟩, current + 1 + n, line + dl)

/-- `Scanner::scan_token` from src/scanner.rs: `none` at end of input,
otherwise the scanned token with the updated `current` and `line`.
(The `self.start` field is assigned but never read in the source, so it is
not modelled; the two-character operators peek at `current + 1`.) -/
def scan_token (src : List Char) (current line : Nat) :
    Option (Token × Nat × Nat) :=
  (src.get? current).map fun ch =>
    match ch with
    | '(' => (⟨.LeftParen, "(", line⟩, current + 1, line)
    | '{' => (⟨.LeftBrace, "\x7b", line⟩, current + 1, line)
    | '}' => (⟨.RightBrace, "\x7d", line⟩, current + 1, line)
    | ')' => (⟨.RightParen, ")", line⟩, current + 1, line)
    | ',' => (⟨.Comma, ",", line⟩, current + 1, line)
    | '.' => (⟨.Dot, ".", line⟩, current + 1, line)
    | '-' => (⟨.Minus, "-", line⟩, current + 1, line)
    | '+' => (⟨.Plus, "+", line⟩, current + 1, line)
    | ';' => (⟨.Semicolon, ";", line⟩, current + 1, line)
    | '*' => (⟨.Star, "*", line⟩, current + 1, line)
    | '/' => (⟨.Slash, "/", line⟩, current + 1, line)
    | '!' =>
      if src.get? (current + 1) = some '=' then
        (⟨.BangEqual, "!=", line⟩, current + 2, line)
      else (⟨.Bang, "!", line⟩, current + 1, line)
    | '=' =>
      if src.get? (current + 1) = some '=' then
        (⟨.EqualEqual, "==", line⟩, current + 2, line)
      else (⟨.Equal, "=", line⟩, current + 1, line)
    | '>' =>
      if src.get? (current + 1) = some '=' then
        (⟨.GreaterEqual, ">=", line⟩, current + 2, line)
      else (⟨.Greater, ">", line⟩, current + 1, line)
    | '<' =>
      if src.get? (current + 1) = some '=' then
        (⟨.LessEqual, "<=", line⟩, current + 2, line)
      else (⟨.Less, "<", line⟩, current + 1, line)
    | '\n' => (⟨.Blank, "\n", line⟩, current + 1, line + 1)
    | ' ' => (⟨.Blank, " ", line⟩, current + 1, line)
    | '\t' => (⟨.Blank, "\t", line⟩, current + 1, line)
    | '\r' => (⟨.Blank, "\r", line⟩, current + 1, line)
    | '"' => stringTok src current line
    | other =>
      -- the `'A'..='Z' | 'a'..='z'` arm, the `'0'..='9'` arm,
      -- and the catch-all `invalid` arm
      if ('A' ≤ other && other ≤ 'Z') || ('a' ≤ other && other ≤ 'z') then
        let (t, c') := identifier src current line
        (t, c', line)
      else if '0' ≤ other && other ≤ '9' then
        let (t, c') := number src current line
        (t, c', line)
      else (⟨.Invalid, String.mk [other], line⟩, current + 1, line)

/-- The `while let` loop of `Scanner::scan_tokens`: `Invalid` tokens are
reported to stdout and dropped, `Blank` tokens are dropped, everything else
is appended; when `scan_token` returns `None` the `Eof` token is appended.
Fuel-indexed; `source.length + 1` fuel always suffices since every scanned
token advances `current` by at least one. -/
def scan_tokens_aux (src : List Char) :
    Nat → Nat → Nat → List Token → List Token
  | 0, _, line, acc => acc ++ [⟨.Eof, "", line⟩]
  | fuel + 1, current, line, acc =>
    match scan_token src current line with
    | none => acc ++ [⟨.Eof, "", line⟩]
    | some (t, current', line') =>
      match t.type with
      | .Invalid => scan_tokens_aux src fuel current' line' acc
      | .Blank => scan_tokens_aux src fuel current' line' acc
      | _ => scan_tokens_aux src fuel current' line' (acc ++ [t])

/-- `Scanner::scan_tokens` from src/scanner.rs (entered with
`current = 0, line = 1`). -/
def scan_tokens (source : String) : List Token :=
  scan_tokens_aux source.data (source.data.length + 1) 0 1 []

/-- The derived `Debug` of `TokenType` (variant names), used in the
invalid-assignment-target message. -/
def debugTokenType : TokenType → String
  | .LeftParen => "LeftParen" | .RightParen => "RightParen"
  | .LeftBrace => "LeftBrace" | .RightBrace => "RightBrace"
  | .Comma => "Comma" | .Dot => "Dot" | .Minus => "Minus" | .Plus => "Plus"
  | .Semicolon => "Semicolon" | .Slash => "Slash" | .Star => "Star"
  | .Bang => "Bang" | .BangEqual => "BangEqual" | .Equal => "Equal"
  | .EqualEqual => "EqualEqual" | .Greater => "Greater"
  | .GreaterEqual => "GreaterEqual" | .Less => "Less" | .LessEqual => "LessEqual"
  | .Identifier => "Identifier" | .String => "String" | .Number => "Number"
  | .And => "And" | .Class => "Class" | .Else => "Else" | .False => "False"
  | .Func => "Func" | .For => "For" | .If => "If" | .Nil => "Nil" | .Or => "Or"
  | .Print => "Print" | .Return => "Return" | .Super => "Super" | .This => "This"
  | .True => "True" | .Var => "Var" | .While => "While"
  | .Eof => "Eof" | .Invalid => "Invalid" | .Blank => "Blank"

/-- The derived `Debug` of `Token`. -/
def debugToken (t : Token) : String :=
  "Token \x7b r#type: " ++ debugTokenType t.type ++ ", lexeme: \"" ++
    t.lexeme ++ "\", line: " ++ toString t.line ++ " \x7d"

/-- `Parser` from src/parser.rs. -/
structure Parser where
  tokens : List Token
  current : Nat
deriving DecidableEq

/-- `Parser::peek`: `self.tokens.get(self.current)`; the callers all
`.unwrap()`, modelled as a panic where this is `none`. -/
def Parser.peek (p : Parser) : Option Token := p.tokens.get? p.current

/-- `Parser::previous`: `self.tokens.get(self.current - 1).unwrap()`;
at `current = 0` the Rust `usize` subtraction already panics (debug) or
produces an out-of-range index (release), so the model is `none` there. -/
def Parser.previous (p : Parser) : Option Token :=
  if p.current = 0 then none else p.tokens.get? (p.current - 1)

/-- `Parser::is_at_end`: `peek().r#type == Eof` (`none` = the `peek` panic). -/
def Parser.is_at_end (p : Parser) : Option Bool :=
  p.peek.map (fun t => t.type = .Eof)

/-- `Parser::advance`: step `current` unless at `Eof`, then return
`previous()`. -/
def Parser.advance (p : Parser) : Option (Token × Parser) :=
  match p.is_at_end with
  | none => none
  | some atEnd =>
    let p' := if atEnd then p else { p with current := p.current + 1 }
    p'.previous.map (fun t => (t, p'))

/-- `Parser::check`: false at `Eof`, otherwise compare the peeked type. -/
def Parser.check (p : Parser) (token_type : TokenType) : Option Bool :=
  p.peek.map (fun t => if t.type = .Eof then false else t.type = token_type)

/-- `Parser::token_type_match`: advance past the first type of the list that
checks, returning whether any did. -/
def token_type_match (p : Parser) : List TokenType → Option (Bool × Parser)
  | [] => some (false, p)
  | tt :: rest =>
    match p.check tt with
    | none => none
    | some true => p.advance.map (fun x => (true, x.2))
    | some false => token_type_match p rest

/-- `Parser::consume`: advance past the expected type or build the
"are expected, but got" parse error from the peeked token. -/
def consume (p : Parser) (token_type : TokenType) :
    Outcome ParseError Token × Parser :=
  match p.check token_type with
  | none => (.panicked, p)
  | some true =>
    match p.advance with
    | none => (.panicked, p)
    | some (t, p') => (.ok t, p')
  | some false =>
    match p.peek with
    | none => (.panicked, p)
    | some cur =>
      (.err ⟨"[line " ++ toString cur.line ++ "]Token type `" ++
             displayTokenType token_type ++ "` are expected, but got `" ++
             cur.lexeme ++ "`"⟩, p)

/-- The `while !is_at_end` loop of `Parser::synchronize`: stop after a
semicolon was just consumed or before a statement-starting keyword, else
advance. -/
def synchronize_loop : Nat → Parser → Outcome ParseError Unit × Parser
  | 0, p => (.fuelOut, p)
  | fuel + 1, p =>
    match p.is_at_end with
    | none => (.panicked, p)
    | some true => (.ok (), p)
    | some false =>
      match p.previous with
      | none => (.panicked, p)
      | some prev =>
        if prev.type = .Semicolon then (.ok (), p)
        else
          match p.peek with
          | none => (.panicked, p)
          | some t =>
            match t.type with
            | .Class | .Func | .Var | .For | .If | .While | .Print | .Return =>
              (.ok (), p)
            | _ =>
              match p.advance with
              | none => (.panicked, p)
              | some (_, p1) => synchronize_loop fuel p1

/-- `Parser::synchronize`: advance once, then run the loop. -/
def synchronize (fuel : Nat) (p : Parser) : Outcome ParseError Unit × Parser :=
  match p.advance with
  | none => (.panicked, p)
  | some (_, p1) => synchronize_loop fuel p1

/-- The mutually recursive grammar productions of src/parser.rs, as a tag.
Each constructor stands for one `Parser` method (or one of its `while` loops,
which carry their accumulator); the single fuel-indexed step function
`parser_step` below dispatches on this tag, which keeps the recursion
non-mutual.  (A direct Lean `mutual` block compiles to a `brecOn` packing
whose unfolding is intractable for concrete runs.) -/
inductive ParserProd where
  | declarationP
  | var_declarationP
  | statementP
  | print_stmtP
  | expr_stmtP
  | blockP
  | block_loopP (acc : List Stmt)
  | expressionP
  | assignmentP
  | equalityP
  | equality_loopP (e : Expr)
  | comparisonP
  | comparison_loopP (e : Expr)
  | termP
  | term_loopP (e : Expr)
  | factorP
  | factor_loopP (e : Expr)
  | unaryP
  | primaryP
  | parse_loopP (acc : List Stmt)

/-- What a production returns: an expression, a statement, or (for the
top-level `parse` loop) a statement list. -/
inductive ParseOut where
  | expr (e : Expr)
  | stmt (s : Stmt)
  | stmts (l : List Stmt)

/-- Project a `parser_step` result onto an expression (the tags guarantee the
other `ok` cases never arise; they are mapped to a panic). -/
def asExpr : Outcome ParseError ParseOut × Parser →
    Outcome ParseError Expr × Parser
  | (.ok (.expr e), p) => (.ok e, p)
  | (.ok _, p) => (.panicked, p)
  | (.err e, p) => (.err e, p)
  | (.panicked, p) => (.panicked, p)
  | (.fuelOut, p) => (.fuelOut, p)

/-- Project a `parser_step` result onto a statement. -/
def asStmt : Outcome ParseError ParseOut × Parser →
    Outcome ParseError Stmt × Parser
  | (.ok (.stmt s), p) => (.ok s, p)
  | (.ok _, p) => (.panicked, p)
  | (.err e, p) => (.err e, p)
  | (.panicked, p) => (.panicked, p)
  | (.fuelOut, p) => (.fuelOut, p)

/-- Project a `parser_step` result onto a statement list. -/
def asStmts : Outcome ParseError ParseOut × Parser →
    Outcome ParseError (List Stmt) × Parser
  | (.ok (.stmts l), p) => (.ok l, p)
  | (.ok _, p) => (.panicked, p)
  | (.err e, p) => (.err e, p)
  | (.panicked, p) => (.panicked, p)
  | (.fuelOut, p) => (.fuelOut, p)

/-- One step of the recursive-descent parser of src/parser.rs.  Every arm is
the direct translation of the corresponding `Parser` method (named wrappers
follow below); each nested grammar call spends one unit of fuel. -/
def parser_step : Nat → ParserProd → Parser → Outcome ParseError ParseOut × Parser
  | 0, _, p => (.fuelOut, p)
  | fuel + 1, prod, p =>
    match prod with
    -- `Parser::declaration`: a `var` declaration or a statement
    | .declarationP =>
      match token_type_match p [.Var] with
      | none => (.panicked, p)
      | some (true, p1) => parser_step fuel .var_declarationP p1
      | some (false, p1) => parser_step fuel .statementP p1
    -- `Parser::var_declaration`.  Note the source: the semicolon is consumed
    -- only inside the `if` branch that saw an `=` initializer; with no
    -- initializer the statement is returned with the semicolon unconsumed
    | .var_declarationP =>
      match consume p .Identifier with
      | (.ok nameTok, p1) =>
        match token_type_match p1 [.Equal] with
        | none => (.panicked, p1)
        | some (true, p2) =>
          match asExpr (parser_step fuel .expressionP p2) with
          | (.ok e, p3) =>
            match consume p3 .Semicolon with
            | (.ok _, p4) => (.ok (.stmt (.Var nameTok.lexeme (some e))), p4)
            | (.err er, p4) => (.err er, p4)
            | (.panicked, p4) => (.panicked, p4)
            | (.fuelOut, p4) => (.fuelOut, p4)
          | (.err er, p3) => (.err er, p3)
          | (.panicked, p3) => (.panicked, p3)
          | (.fuelOut, p3) => (.fuelOut, p3)
        | some (false, p2) => (.ok (.stmt (.Var nameTok.lexeme none)), p2)
      | (.err er, p1) => (.err er, p1)
      | (.panicked, p1) => (.panicked, p1)
      | (.fuelOut, p1) => (.fuelOut, p1)
    -- `Parser::statement`: print statement, block, or expression statement
    | .statementP =>
      match token_type_match p [.Print] with
      | none => (.panicked, p)
      | some (true, p1) => parser_step fuel .print_stmtP p1
      | some (false, p1) =>
        match token_type_match p1 [.LeftBrace] with
        | none => (.panicked, p1)
        | some (true, p2) => parser_step fuel .blockP p2
        | some (false, p2) => parser_step fuel .expr_stmtP p2
    -- `Parser::print_stmt`
    | .print_stmtP =>
      match asExpr (parser_step fuel .expressionP p) with
      | (.ok e, p1) =>
        match consume p1 .Semicolon with
        | (.ok _, p2) => (.ok (.stmt (.Print e)), p2)
        | (.err er, p2) => (.err er, p2)
        | (.panicked, p2) => (.panicked, p2)
        | (.fuelOut, p2) => (.fuelOut, p2)
      | (.err er, p1) => (.err er, p1)
      | (.panicked, p1) => (.panicked, p1)
      | (.fuelOut, p1) => (.fuelOut, p1)
    -- `Parser::expr_stmt`
    | .expr_stmtP =>
      match asExpr (parser_step fuel .expressionP p) with
      | (.ok e, p1) =>
        match consume p1 .Semicolon with
        | (.ok _, p2) => (.ok (.stmt (.ExprStmt e)), p2)
        | (.err er, p2) => (.err er, p2)
        | (.panicked, p2) => (.panicked, p2)
        | (.fuelOut, p2) => (.fuelOut, p2)
      | (.err er, p1) => (.err er, p1)
      | (.panicked, p1) => (.panicked, p1)
      | (.fuelOut, p1) => (.fuelOut, p1)
    -- `Parser::block`: run the declaration loop from an empty list
    | .blockP => parser_step fuel (.block_loopP []) p
    -- the `while !check(RightBrace) && !is_at_end` loop of `Parser::block`,
    -- then `self.consume(TokenType::RightBrace);` whose `Result` the source
    -- discards (so a missing `}` is not an error there)
    | .block_loopP acc =>
      match p.check .RightBrace with
      | none => (.panicked, p)
      | some rb =>
        match p.is_at_end with
        | none => (.panicked, p)
        | some atEnd =>
          if !rb && !atEnd then
            match asStmt (parser_step fuel .declarationP p) with
            | (.ok s, p1) => parser_step fuel (.block_loopP (acc ++ [s])) p1
            | (.err er, p1) => (.err er, p1)
            | (.panicked, p1) => (.panicked, p1)
            | (.fuelOut, p1) => (.fuelOut, p1)
          else
            match consume p .RightBrace with
            | (.panicked, p1) => (.panicked, p1)
            | (_, p1) => (.ok (.stmt (.Block acc)), p1)
    -- `Parser::expression`: delegates to `assignment`
    | .expressionP => parser_step fuel .assignmentP p
    -- `Parser::assignment`
    | .assignmentP =>
      match asExpr (parser_step fuel .equalityP p) with
      | (.ok expr, p1) =>
        match token_type_match p1 [.Equal] with
        | none => (.panicked, p1)
        | some (true, p2) =>
          match p2.previous with
          | none => (.panicked, p2)
          | some equalsTok =>
            match asExpr (parser_step fuel .assignmentP p2) with
            | (.ok value, p3) =>
              match expr with
              | .Variable varTok => (.ok (.expr (.Assign varTok value)), p3)
              | _ =>
                (.err ⟨"Invalid assignment target `" ++ debugToken equalsTok ++
                       "`."⟩, p3)
            | (.err er, p3) => (.err er, p3)
            | (.panicked, p3) => (.panicked, p3)
            | (.fuelOut, p3) => (.fuelOut, p3)
        | some (false, p2) => (.ok (.expr expr), p2)
      | (.err er, p1) => (.err er, p1)
      | (.panicked, p1) => (.panicked, p1)
      | (.fuelOut, p1) => (.fuelOut, p1)
    -- `Parser::equality`: a comparison followed by the `!=` / `==` loop
    | .equalityP =>
      match asExpr (parser_step fuel .comparisonP p) with
      | (.ok e, p1) => parser_step fuel (.equality_loopP e) p1
      | (.err er, p1) => (.err er, p1)
      | (.panicked, p1) => (.panicked, p1)
      | (.fuelOut, p1) => (.fuelOut, p1)
    -- the `while token_type_match([BangEqual, EqualEqual])` loop of
    -- `Parser::equality`: operator from `previous()`, next comparison,
    -- fold left-associatively into `Expr::Binary`
    | .equality_loopP e =>
      match token_type_match p [.BangEqual, .EqualEqual] with
      | none => (.panicked, p)
      | some (false, p1) => (.ok (.expr e), p1)
      | some (true, p1) =>
        match p1.previous with
        | none => (.panicked, p1)
        | some op =>
          match asExpr (parser_step fuel .comparisonP p1) with
          | (.ok right, p2) => parser_step fuel (.equality_loopP (.Binary e op right)) p2
          | (.err er, p2) => (.err er, p2)
          | (.panicked, p2) => (.panicked, p2)
          | (.fuelOut, p2) => (.fuelOut, p2)
    -- `Parser::comparison`: a term followed by the `>` `>=` `<` `<=` loop
    | .comparisonP =>
      match asExpr (parser_step fuel .termP p) with
      | (.ok e, p1) => parser_step fuel (.comparison_loopP e) p1
      | (.err er, p1) => (.err er, p1)
      | (.panicked, p1) => (.panicked, p1)
      | (.fuelOut, p1) => (.fuelOut, p1)
    -- the `while token_type_match([Greater, GreaterEqual, Less, LessEqual])`
    -- loop of `Parser::comparison`
    | .comparison_loopP e =>
      match token_type_match p [.Greater, .GreaterEqual, .Less, .LessEqual] with
      | none => (.panicked, p)
      | some (false, p1) => (.ok (.expr e), p1)
      | some (true, p1) =>
        match p1.previous with
        | none => (.panicked, p1)
        | some op =>
          match asExpr (parser_step fuel .termP p1) with
          | (.ok right, p2) => parser_step fuel (.comparison_loopP (.Binary e op right)) p2
          | (.err er, p2) => (.err er, p2)
          | (.panicked, p2) => (.panicked, p2)
          | (.fuelOut, p2) => (.fuelOut, p2)
    -- `Parser::term`: a factor followed by the `-` `+` loop
    | .termP =>
      match asExpr (parser_step fuel .factorP p) with
      | (.ok e, p1) => parser_step fuel (.term_loopP e) p1
      | (.err er, p1) => (.err er, p1)
      | (.panicked, p1) => (.panicked, p1)
      | (.fuelOut, p1) => (.fuelOut, p1)
    -- the `while token_type_match([Minus, Plus])` loop of `Parser::term`
    | .term_loopP e =>
      match token_type_match p [.Minus, .Plus] with
      | none => (.panicked, p)
      | some (false, p1) => (.ok (.expr e), p1)
      | some (true, p1) =>
        match p1.previous with
        | none => (.panicked, p1)
        | some op =>
          match asExpr (parser_step fuel .factorP p1) with
          | (.ok right, p2) => parser_step fuel (.term_loopP (.Binary e op right)) p2
          | (.err er, p2) => (.err er, p2)
          | (.panicked, p2) => (.panicked, p2)
          | (.fuelOut, p2) => (.fuelOut, p2)
    -- `Parser::factor`: a unary followed by the `/` `*` loop
    | .factorP =>
      match asExpr (parser_step fuel .unaryP p) with
      | (.ok e, p1) => parser_step fuel (.factor_loopP e) p1
      | (.err er, p1) => (.err er, p1)
      | (.panicked, p1) => (.panicked, p1)
      | (.fuelOut, p1) => (.fuelOut, p1)
    -- the `while token_type_match([Slash, Star])` loop of `Parser::factor`
    | .factor_loopP e =>
      match token_type_match p [.Slash, .Star] with
      | none => (.panicked, p)
      | some (false, p1) => (.ok (.expr e), p1)
      | some (true, p1) =>
        match p1.previous with
        | none => (.panicked, p1)
        | some op =>
          match asExpr (parser_step fuel .unaryP p1) with
          | (.ok right, p2) => parser_step fuel (.factor_loopP (.Binary e op right)) p2
          | (.err er, p2) => (.err er, p2)
          | (.panicked, p2) => (.panicked, p2)
          | (.fuelOut, p2) => (.fuelOut, p2)
    -- `Parser::unary`: `!` / `-` prefix or primary
    | .unaryP =>
      match token_type_match p [.Bang, .Minus] with
      | none => (.panicked, p)
      | some (true, p1) =>
        match p1.previous with
        | none => (.panicked, p1)
        | some op =>
          match asExpr (parser_step fuel .unaryP p1) with
          | (.ok right, p2) => (.ok (.expr (.Unary op right)), p2)
          | (.err er, p2) => (.err er, p2)
          | (.panicked, p2) => (.panicked, p2)
          | (.fuelOut, p2) => (.fuelOut, p2)
      | some (false, p1) => parser_step fuel .primaryP p1
    -- `Parser::primary`.  A literal token, a parenthesised expression (whose
    -- `consume(RightParen)` result is `.unwrap()`ed — an `Err` there is a
    -- panic), an identifier, or — for any other token — the source's
    -- `unreachable!()`, i.e. a panic
    | .primaryP =>
      match token_type_match p [.False, .True, .Nil, .Number, .String] with
      | none => (.panicked, p)
      | some (true, p1) =>
        match p1.previous with
        | none => (.panicked, p1)
        | some t => (.ok (.expr (.Literal t)), p1)
      | some (false, p1) =>
        match token_type_match p1 [.LeftParen] with
        | none => (.panicked, p1)
        | some (true, p2) =>
          match asExpr (parser_step fuel .expressionP p2) with
          | (.ok e, p3) =>
            match consume p3 .RightParen with
            | (.ok _, p4) => (.ok (.expr (.Grouping e)), p4)
            | (.err _, p4) => (.panicked, p4)
            | (.panicked, p4) => (.panicked, p4)
            | (.fuelOut, p4) => (.fuelOut, p4)
          | (.err er, p3) => (.err er, p3)
          | (.panicked, p3) => (.panicked, p3)
          | (.fuelOut, p3) => (.fuelOut, p3)
        | some (false, p2) =>
          match token_type_match p2 [.Identifier] with
          | none => (.panicked, p2)
          | some (true, p3) =>
            match p3.previous with
            | none => (.panicked, p3)
            | some t => (.ok (.expr (.Variable t)), p3)
          | some (false, p3) => (.panicked, p3)
    -- the `while !is_at_end` loop of `Parser::parse`: collect each
    -- successful `declaration`, and on a parse error discard it and
    -- `synchronize`
    | .parse_loopP acc =>
      match p.is_at_end with
      | none => (.panicked, p)
      | some true => (.ok (.stmts acc), p)
      | some false =>
        match asStmt (parser_step fuel .declarationP p) with
        | (.ok s, p1) => parser_step fuel (.parse_loopP (acc ++ [s])) p1
        | (.err _, p1) =>
          match synchronize fuel p1 with
          | (.ok _, p2) => parser_step fuel (.parse_loopP acc) p2
          | (.err e, p2) => (.err e, p2)
          | (.panicked, p2) => (.panicked, p2)
          | (.fuelOut, p2) => (.fuelOut, p2)
        | (.panicked, p1) => (.panicked, p1)
        | (.fuelOut, p1) => (.fuelOut, p1)

/-- `Parser::declaration` (wrapper over `parser_step`). -/
def declaration (fuel : Nat) (p : Parser) : Outcome ParseError Stmt × Parser :=
  asStmt (parser_step fuel .declarationP p)

/-- `Parser::var_declaration` (wrapper over `parser_step`). -/
def var_declaration (fuel : Nat) (p : Parser) :
    Outcome ParseError Stmt × Parser :=
  asStmt (parser_step fuel .var_declarationP p)

/-- `Parser::statement` (wrapper over `parser_step`). -/
def statement (fuel : Nat) (p : Parser) : Outcome ParseError Stmt × Parser :=
  asStmt (parser_step fuel .statementP p)

/-- `Parser::expression` (wrapper over `parser_step`). -/
def expression (fuel : Nat) (p : Parser) : Outcome ParseError Expr × Parser :=
  asExpr (parser_step fuel .expressionP p)

/-- `Parser::primary` (wrapper over `parser_step`). -/
def primary (fuel : Nat) (p : Parser) : Outcome ParseError Expr × Parser :=
  asExpr (parser_step fuel .primaryP p)

/-- `Parser::parse` from src/parser.rs: run the loop from an empty statement
list.  The source always returns `Ok(statements)`; an `Err` cannot leave this
function (errors are swallowed by `synchronize`), only panics can. -/
def parse (fuel : Nat) (p : Parser) : Outcome ParseError (List Stmt) × Parser :=
  asStmts (parser_step fuel (.parse_loopP []) p)


/-- `Parser::all_parsed`: `self.current == self.tokens.len() - 1`. -/
def all_parsed (p : Parser) : Bool :=
  p.current == p.tokens.length - 1

/-- `Parser::parse_expression` (the test helper): just `expression`. -/
def parse_expression (fuel : Nat) (p : Parser) :
    Outcome ParseError Expr × Parser :=
  expression fuel p

/-- Fuel that is always sufficient for `parse`: the loop and every
grammar-rule call strictly consume either a token or one level of the
(statically bounded) call chain per fuel unit. -/
def parseFuel (tokens : List Token) : Nat := 12 * (tokens.length + 10)

/-- The part of `Lox::run` (src/lox.rs) after scanning: parse (`.unwrap()` —
an `Err` from `parse` would panic), fail with a `ParseError` when
`all_parsed` is false, otherwise execute the statements in order (the very
fold of `execute_list`, starting from `Environment::new` and an empty
output buffer on a fresh interpreter, as in the repository's tests), wrapping
a runtime failure into `LoxError::RuntimeError`.  Returns the result and the
printed lines. -/
def lox_run_tokens (tokens : List Token) : Outcome LoxError Unit × List String :=
  match parse (parseFuel tokens) ⟨tokens, 0⟩ with
  | (.ok stmts, p') =>
    if all_parsed p' then
      match execute_list Environment.new [] stmts with
      | (.ok _, _, out) => (.ok (), out)
      | (.err e, _, out) => (.err (.RuntimeError e), out)
      | (.panicked, _, out) => (.panicked, out)
      | (.fuelOut, _, out) => (.fuelOut, out)
    else (.err (.ParseError ⟨"not all token parsed"⟩), [])
  | (.err _, _) => (.panicked, [])
  | (.panicked, _) => (.panicked, [])
  | (.fuelOut, _) => (.fuelOut, [])

/-- `Lox::run` from src/lox.rs: scan, then the rest of the pipeline. -/
def lox_run (source : String) : Outcome LoxError Unit × List String :=
  lox_run_tokens (scan_tokens source)

/-! ## Theorems -/

/-- C1: the claim says a `Block` pushes one scope, runs its statements in
order, and pops the scope on *every* exit path, error path included, so the
scope-stack depth is restored even when a contained statement fails.  The
code does pop on the success path (first conjunct: depth stays 1), but a
runtime error inside the block returns early through `?` before
`drop_scope`, leaving the block's scope — with its local binding — on the
stack (second conjunct: depth 2 instead of 1 after `{ var a = 2; 1 / 0; }`),
contradicting the claim. -/
theorem c1_block_scope_not_dropped_on_error :
    execute Environment.new []
        (.Block [.Var "a" (some (.Literal ⟨.Number, "2", 1⟩))]) =
      (.ok (), [[]], [])
    ∧ execute Environment.new []
        (.Block [.Var "a" (some (.Literal ⟨.Number, "2", 1⟩)),
                 .ExprStmt (.Binary (.Literal ⟨.Number, "1", 1⟩)
                   ⟨.Slash, "/", 1⟩ (.Literal ⟨.Number, "0", 1⟩))]) =
      (.err ⟨"Divided by zero is not allowed."⟩, [[("a", .Num 2)], []], []) :=
  ⟨rfl, rfl⟩

/-- C2: the claim says literal evaluation is total over the four literal
token kinds and that the literal `nil` evaluates to the `Nil` value.  In the
code `get_literal_value` has no `Nil` arm — the wildcard is `unreachable!()`
— so although the parser happily produces a `nil` literal (second conjunct),
evaluating it panics instead of returning `Nil` (first and third conjuncts),
and the whole pipeline on `print nil;` panics (last conjunct). -/
theorem c2_nil_literal_evaluation_panics :
    get_literal_value ⟨.Nil, "nil", 1⟩ = none
    ∧ parse_expression 20 ⟨[⟨.Nil, "nil", 1⟩, ⟨.Eof, "", 1⟩], 0⟩ =
        (.ok (.Literal ⟨.Nil, "nil", 1⟩), ⟨[⟨.Nil, "nil", 1⟩, ⟨.Eof, "", 1⟩], 1⟩)
    ∧ evaluate Environment.new (.Literal ⟨.Nil, "nil", 1⟩) =
        (.panicked, Environment.new)
    ∧ lox_run "print nil;" = (.panicked, []) :=
  ⟨rfl, by decide, rfl, by decide⟩

/-- C3: the claim says `parse` always returns normally, discarding malformed
statements and synchronizing, and that no malformed input can abort (panic)
the parser.  Recovery does work when the failure is caught before `primary`
(third conjunct: `var 5; print 1;` recovers and prints `1`), but any
statement whose first token reaches `primary`'s `unreachable!()` — e.g. the
input `;` — panics the whole parse (first conjunct) and hence the run
(second conjunct), contradicting the claim. -/
theorem c3_malformed_statement_panics_parse :
    (parse (parseFuel (scan_tokens ";")) ⟨scan_tokens ";", 0⟩).1 = .panicked
    ∧ lox_run ";" = (.panicked, [])
    ∧ lox_run "var 5; print 1;" = (.ok (), ["1"]) :=
  ⟨rfl, by decide, by decide⟩

/-- C4: the claim says parsing `var IDENT ;` succeeds *and consumes the
terminating semicolon*, and that executing the statement binds the name to
`Nil`.  The execution half is true (last conjunct), but `var_declaration`
consumes the semicolon only in the initializer branch: on `var a;` it
returns with `current` still pointing at the semicolon (second conjunct,
token index 2), after which the parse loop feeds `;` to `primary`'s
`unreachable!()` and the whole run panics (third conjunct). -/
theorem c4_var_decl_without_init_leaves_semicolon :
    scan_tokens "var a;" =
      [⟨.Var, "var", 1⟩, ⟨.Identifier, "a", 1⟩, ⟨.Semicolon, ";", 1⟩,
       ⟨.Eof, "", 1⟩]
    ∧ var_declaration 20
        ⟨[⟨.Var, "var", 1⟩, ⟨.Identifier, "a", 1⟩, ⟨.Semicolon, ";", 1⟩,
          ⟨.Eof, "", 1⟩], 1⟩ =
      (.ok (.Var "a" none),
       ⟨[⟨.Var, "var", 1⟩, ⟨.Identifier, "a", 1⟩, ⟨.Semicolon, ";", 1⟩,
         ⟨.Eof, "", 1⟩], 2⟩)
    ∧ lox_run "var a;" = (.panicked, [])
    ∧ execute Environment.new [] (.Var "a" none) =
        (.ok (), [[("a", .Nil)]], []) :=
  ⟨by decide, rfl, by decide, rfl⟩

/-- C5: `all_parsed` is false whenever the parser's cursor is not at the last
token (the end-of-input marker), and the `run` pipeline reports a
`ParseError` instead of success whenever parsing returned with `all_parsed`
false; conversely a successful `run` implies parsing consumed up to the
end-of-input marker and every statement executed without error. -/
theorem c5_all_parsed_and_run_failure :
    (∀ p : Parser, p.current ≠ p.tokens.length - 1 → all_parsed p = false)
    ∧ (∀ (tokens : List Token) (stmts : List Stmt) (p' : Parser),
        parse (parseFuel tokens) ⟨tokens, 0⟩ = (.ok stmts, p') →
        all_parsed p' = false →
        lox_run_tokens tokens =
          (.err (.ParseError ⟨"not all token parsed"⟩), []))
    ∧ (∀ (source : String) (out : List String),
        lox_run source = (.ok (), out) →
        ∃ stmts p' envF,
          parse (parseFuel (scan_tokens source)) ⟨scan_tokens source, 0⟩ =
            (.ok stmts, p')
          ∧ all_parsed p' = true
          ∧ execute_list Environment.new [] stmts = (.ok (), envF, out)) := by
  refine ⟨?_, ?_, ?_⟩
  · intro p h
    unfold all_parsed
    exact beq_eq_false_iff_ne.mpr h
  · intro tokens stmts p' hp hap
    unfold lox_run_tokens
    rw [hp]
    simp [hap]
  · intro source out h
    unfold lox_run lox_run_tokens at h
    split at h
    case _ stmts p' heq =>
      split at h
      case isTrue hall =>
        split at h
        case _ a envF outF heq2 =>
          refine ⟨stmts, p', envF, heq, hall, ?_⟩
          rw [heq2]
          simp at h
          simp [h]
        case _ => simp at h
        case _ => simp at h
        case _ => simp at h
      case isFalse => simp at h
    case _ => simp at h
    case _ => simp at h
    case _ => simp at h

/-- Witness for C5: a parser state whose cursor is off the last token has
`all_parsed` false; a hand-made token stream with an embedded end-of-input
marker parses with trailing tokens left and makes the run report the parse
failure; and the successful run of `print 1;` yields the existential
conclusion. -/
theorem c5_witness :
    all_parsed ⟨[⟨.Eof, "", 1⟩], 5⟩ = false
    ∧ lox_run_tokens [⟨.Eof, "", 1⟩, ⟨.Number, "1", 1⟩, ⟨.Eof, "", 1⟩] =
        (.err (.ParseError ⟨"not all token parsed"⟩), [])
    ∧ ∃ stmts p' envF,
        parse (parseFuel (scan_tokens "print 1;")) ⟨scan_tokens "print 1;", 0⟩ =
          (.ok stmts, p')
        ∧ all_parsed p' = true
        ∧ execute_list Environment.new [] stmts = (.ok (), envF, ["1"]) :=
  ⟨c5_all_parsed_and_run_failure.1 ⟨[⟨.Eof, "", 1⟩], 5⟩ (by decide),
   c5_all_parsed_and_run_failure.2.1
     [⟨.Eof, "", 1⟩, ⟨.Number, "1", 1⟩, ⟨.Eof, "", 1⟩] [] ⟨[⟨.Eof, "", 1⟩, ⟨.Number, "1", 1⟩, ⟨.Eof, "", 1⟩], 0⟩
     rfl (by decide),
   c5_all_parsed_and_run_failure.2.2 "print 1;" ["1"] (by decide)⟩

/-- C6: every division whose (successfully evaluated) right operand is the
number zero fails with the distinguished division-by-zero error, whatever
value the left operand has — the zero check is the first arm of
`evaluate_binary`'s dispatch, before the numeric-operator arm and before any
type checking (first conjunct: over the raw dispatch for an arbitrary left
value; second conjunct: lifted to `evaluate` on a `Binary` node with a
`Slash` operator token). -/
theorem c6_div_by_zero_before_dispatch :
    (∀ (ls rs es : String) (l : LiteralValue),
      evaluate_binary_op ls rs es (some l) (some (.Num 0)) .Slash =
        .err ⟨"Divided by zero is not allowed."⟩)
    ∧ (∀ (env env1 env2 : Environment) (l r : Expr) (opTok : Token)
        (lv : LiteralValue),
        opTok.type = .Slash →
        evaluate env l = (.ok (some lv), env1) →
        evaluate env1 r = (.ok (some (.Num 0)), env2) →
        evaluate env (.Binary l opTok r) =
          (.err ⟨"Divided by zero is not allowed."⟩, env2)) := by
  refine ⟨fun ls rs es l => rfl, ?_⟩
  intro env env1 env2 l r opTok lv hop h1 h2
  simp only [evaluate, h1, h2, hop]
  rfl

/-- Witness for C6: a division of the string `"x"` (an ill-typed dividend)
by the number literal `0` produces the division-by-zero error, not a type
error. -/
theorem c6_witness :
    evaluate Environment.new
      (.Binary (.Literal ⟨.String, "x", 1⟩) ⟨.Slash, "/", 1⟩
        (.Literal ⟨.Number, "0", 1⟩)) =
    (.err ⟨"Divided by zero is not allowed."⟩, Environment.new) :=
  c6_div_by_zero_before_dispatch.2 Environment.new Environment.new
    Environment.new (.Literal ⟨.String, "x", 1⟩) (.Literal ⟨.Number, "0", 1⟩)
    ⟨.Slash, "/", 1⟩ (.Str "x") rfl rfl rfl

/-- C7: `assign` rebinds the name in the innermost scope that already defines
it (second conjunct: with the scope stack written innermost-first, the first
containing scope is updated by insert and all others are untouched); if no
scope defines the name it fails with the undefined-variable error and the
environment is returned unchanged — no binding is created anywhere (first
conjunct); and `evaluate` on an `Assign` node first evaluates the value
expression and only then calls `assign` with the resulting value (third
conjunct). -/
theorem c7_assign_rebinds_innermost_or_errors :
    (∀ (env : Environment) (tok : Token) (v : LiteralValue),
      (∀ s ∈ env, Scope.containsKey s tok.lexeme = false) →
      Environment.assign env tok v =
        (.err ⟨"Undefined variable `" ++ tok.lexeme ++ "`."⟩, env))
    ∧ (∀ (pre post : List Scope) (s : Scope) (tok : Token) (v : LiteralValue),
      (∀ sc ∈ pre, Scope.containsKey sc tok.lexeme = false) →
      Scope.containsKey s tok.lexeme = true →
      Environment.assign (pre ++ s :: post) tok v =
        (.ok (), pre ++ Scope.insert tok.lexeme v s :: post))
    ∧ (∀ (env env' : Environment) (tok : Token) (e : Expr) (v : LiteralValue),
      evaluate env e = (.ok (some v), env') →
      evaluate env (.Assign tok e) =
        (match Environment.assign env' tok v with
         | (.ok _, env2) => (.ok (some v), env2)
         | (.err er, env2) => (.err er, env2)
         | (.panicked, env2) => (.panicked, env2)
         | (.fuelOut, env2) => (.fuelOut, env2))) := by
  refine ⟨?_, ?_, ?_⟩
  · intro env tok v h
    have haux : ∀ (scopes : List Scope),
        (∀ s ∈ scopes, Scope.containsKey s tok.lexeme = false) →
        Environment.assignAux tok.lexeme v scopes = none := by
      intro scopes
      induction scopes with
      | nil => intro _; rfl
      | cons s rest ih =>
        intro hs
        have h1 := hs s (List.mem_cons_self s rest)
        simp [Environment.assignAux, h1,
              ih fun t ht => hs t (List.mem_cons_of_mem s ht)]
    unfold Environment.assign
    rw [haux env h]
  · intro pre post s tok v hpre hs
    have haux : ∀ (pre : List Scope),
        (∀ sc ∈ pre, Scope.containsKey sc tok.lexeme = false) →
        Environment.assignAux tok.lexeme v (pre ++ s :: post) =
          some (pre ++ Scope.insert tok.lexeme v s :: post) := by
      intro pre
      induction pre with
      | nil => intro _; simp [Environment.assignAux, hs]
      | cons sc rest ih =>
        intro hp
        have h1 := hp sc (List.mem_cons_self sc rest)
        simp [Environment.assignAux, h1,
              ih fun t ht => hp t (List.mem_cons_of_mem sc ht)]
    unfold Environment.assign
    rw [haux pre hpre]
  · intro env env' tok e v h
    simp only [evaluate, h]

/-- Witness for C7: assigning to an undeclared `a` over a one-scope
environment binding only `b` errors and leaves the environment unchanged;
assigning to `a` when an (innermost-first) empty inner scope precedes an
outer scope binding `a` updates that outer scope; and evaluating the
assignment expression `a = 1` over an environment declaring `a` rebinds it
to `1` and yields `1`. -/
theorem c7_witness :
    Environment.assign [[("b", .Nil)]] ⟨.Identifier, "a", 1⟩ (.Num 1) =
      (.err ⟨"Undefined variable `a`."⟩, [[("b", .Nil)]])
    ∧ Environment.assign [[], [("a", .Num 0)]] ⟨.Identifier, "a", 1⟩ (.Num 1) =
        (.ok (), [[], [("a", .Num 1)]])
    ∧ evaluate [[("a", .Num 0)]]
        (.Assign ⟨.Identifier, "a", 1⟩ (.Literal ⟨.Number, "1", 1⟩)) =
      (.ok (some (.Num 1)), [[("a", .Num 1)]]) := by
  refine ⟨?_, ?_, ?_⟩
  · exact c7_assign_rebinds_innermost_or_errors.1 [[("b", .Nil)]]
      ⟨.Identifier, "a", 1⟩ (.Num 1) (by decide)
  · exact c7_assign_rebinds_innermost_or_errors.2.1 [[]] [] [("a", .Num 0)]
      ⟨.Identifier, "a", 1⟩ (.Num 1) (by decide) (by decide)
  · have h := c7_assign_rebinds_innermost_or_errors.2.2 [[("a", .Num 0)]]
      [[("a", .Num 0)]] ⟨.Identifier, "a", 1⟩ (.Literal ⟨.Number, "1", 1⟩)
      (.Num 1) rfl
    simpa using h

/-- C9: running `var a = 0; { var a = 2; print a; } print a;` through the
whole pipeline prints `2` then `0` and succeeds: the inner declaration
shadows the outer binding in the block's own scope without error, and the
outer binding — unchanged — is visible again after the block. -/
theorem c9_shadowing_prints_two_then_zero :
    lox_run "var a = 0; { var a = 2; print a; } print a;" =
      (.ok (), ["2", "0"]) := by decide

/-- C10: the binary dispatch defines `==` and `!=` only for two `Num`
operands: on any other operand pair those operators produce the
`can not be interpreted` runtime error (first conjunct); and the only operand
combination other than two `Num`s that succeeds at all is `Str + Str`
concatenation (second conjunct). -/
theorem c10_equality_only_on_numbers :
    (∀ (ls rs es : String) (l r : LiteralValue) (op : TokenType),
      (op = .EqualEqual ∨ op = .BangEqual) →
      ¬((∃ a, l = .Num a) ∧ (∃ b, r = .Num b)) →
      evaluate_binary_op ls rs es (some l) (some r) op =
        .err ⟨"Expression `" ++ es ++ "` can not be interpreted."⟩)
    ∧ (∀ (ls rs es : String) (l r : LiteralValue) (op : TokenType)
        (v : LiteralValue),
      evaluate_binary_op ls rs es (some l) (some r) op = .ok v →
      ((∃ a b, l = .Num a ∧ r = .Num b) ∨
       (∃ a b, l = .Str a ∧ r = .Str b ∧ op = .Plus))) := by
  constructor
  · intro ls rs es l r op hop h
    rcases hop with rfl | rfl <;> cases l <;> cases r <;>
      simp_all [evaluate_binary_op, isDivByZero]
  · intro ls rs es l r op v h
    unfold evaluate_binary_op at h
    split at h
    · exact absurd h (by simp)
    · split at h <;> simp_all

/-- Witness for C10: `true == true` yields the `can not be interpreted`
error rather than a boolean, and any successful non-numeric combination is a
string concatenation (instantiated at `"x" + "y"`). -/
theorem c10_witness :
    evaluate_binary_op "true" "true" "(== true true)"
      (some (.Bool true)) (some (.Bool true)) .EqualEqual =
      .err ⟨"Expression `(== true true)` can not be interpreted."⟩
    ∧ ((∃ a b, (LiteralValue.Str "x") = .Num a ∧ (LiteralValue.Str "y") = .Num b) ∨
       (∃ a b, (LiteralValue.Str "x") = .Str a ∧ (LiteralValue.Str "y") = .Str b ∧
         TokenType.Plus = .Plus)) :=
  ⟨c10_equality_only_on_numbers.1 "true" "true" "(== true true)"
     (.Bool true) (.Bool true) .EqualEqual (Or.inl rfl) (by simp),
   c10_equality_only_on_numbers.2 "x" "y" "(+ x y)" (.Str "x") (.Str "y")
     .Plus (.Str "xy") rfl⟩

/-- C8 counterexample: the claim says a letter *or an underscore* begins an
identifier run.  Scanning the one-character source `_` produces an `Invalid`
token — not an `Identifier` — which `scan_tokens` then reports and drops, so
the token stream of `"_"` is just the end-of-input marker. -/
theorem c8_underscore_scanned_invalid :
    scan_token ['_'] 0 1 = some (⟨.Invalid, "_", 1⟩, 1, 1)
    ∧ scan_tokens "_" = [⟨.Eof, "", 1⟩] :=
  ⟨rfl, by decide⟩

/-- C8 (amended): a *letter* begins an identifier run — the scanner consumes
the following alphanumeric characters and classifies the run as a keyword
when it is in the fixed keyword table and as an identifier otherwise (first
conjunct); an underscore instead begins an `Invalid` token consisting of
just that character (second conjunct); and `Invalid` (like `Blank`) tokens
are reported and dropped: they never appear in `scan_tokens` output (third
conjunct). -/
theorem c8_letter_identifier_underscore_invalid :
    (∀ (src : List Char) (cur line : Nat) (c : Char),
      src.get? cur = some c →
      (('A' ≤ c ∧ c ≤ 'Z') ∨ ('a' ≤ c ∧ c ≤ 'z')) →
      scan_token src cur line =
        some
          (match preserved_word
              (String.mk ((src.drop cur).takeWhile isAlphanumericCh)) line with
           | some t => t
           | none =>
             ⟨.Identifier,
              String.mk ((src.drop cur).takeWhile isAlphanumericCh), line⟩,
           cur + ((src.drop cur).takeWhile isAlphanumericCh).length, line))
    ∧ (∀ (src : List Char) (cur line : Nat),
        src.get? cur = some '_' →
        scan_token src cur line = some (⟨.Invalid, "_", line⟩, cur + 1, line))
    ∧ (∀ (source : String) (t : Token), t ∈ scan_tokens source →
        t.type ≠ .Invalid ∧ t.type ≠ .Blank) := by
  have aux : ∀ (fuel : Nat) (src : List Char) (current line : Nat)
      (acc : List Token),
      (∀ t ∈ acc, t.type ≠ TokenType.Invalid ∧ t.type ≠ TokenType.Blank) →
      ∀ t ∈ scan_tokens_aux src fuel current line acc,
        t.type ≠ TokenType.Invalid ∧ t.type ≠ TokenType.Blank := by
    intro fuel
    induction fuel with
    | zero =>
      intro src current line acc hacc t ht
      unfold scan_tokens_aux at ht
      rcases List.mem_append.mp ht with h | h
      · exact hacc t h
      · rcases List.mem_singleton.mp h with rfl
        exact ⟨by simp, by simp⟩
    | succ fuel ih =>
      intro src current line acc hacc t ht
      unfold scan_tokens_aux at ht
      split at ht
      · rcases List.mem_append.mp ht with h | h
        · exact hacc t h
        · rcases List.mem_singleton.mp h with rfl
          exact ⟨by simp, by simp⟩
      · rename_i tk current' line' heq
        split at ht
        · exact ih src current' line' acc hacc t ht
        · exact ih src current' line' acc hacc t ht
        · rename_i hInv hBl
          refine ih src current' line' (acc ++ [tk]) ?_ t ht
          intro u hu
          rcases List.mem_append.mp hu with h | h
          · exact hacc u h
          · rcases List.mem_singleton.mp h with rfl
            exact ⟨fun hc => hInv hc, fun hc => hBl hc⟩
  refine ⟨?_, ?_, ?_⟩
  · intro src cur line c h hc
    unfold scan_token
    rw [h]
    simp only [Option.map]
    split
    all_goals first
      | (exact absurd hc (by decide))
      | (rw [if_pos (by rcases hc with ⟨h1, h2⟩ | ⟨h1, h2⟩ <;> simp [h1, h2])]
         rfl)
  · intro src cur line h
    unfold scan_token
    rw [h]
    rfl
  · intro source t ht
    exact aux (source.data.length + 1) source.data 0 1 [] (by simp) t ht

/-- Witness for C8 (amended): scanning at a letter produces the keyword
token for `var` (a run that is in the table), an underscore at the start of
input produces the dropped `Invalid` token, and a token of the scanned
output of `"x"` is neither `Invalid` nor `Blank`. -/
theorem c8_witness :
    scan_token ['v', 'a', 'r'] 0 1 = some (⟨.Var, "var", 1⟩, 0 + 3, 1)
    ∧ scan_token ['_'] 0 1 = some (⟨.Invalid, "_", 1⟩, 0 + 1, 1)
    ∧ (⟨.Identifier, "x", 1⟩ : Token).type ≠ .Invalid := by
  refine ⟨?_, ?_, ?_⟩
  · have h := c8_letter_identifier_underscore_invalid.1 ['v', 'a', 'r'] 0 1 'v'
      rfl (by decide)
    simpa using h
  · exact c8_letter_identifier_underscore_invalid.2.1 ['_'] 0 1 rfl
  · exact (c8_letter_identifier_underscore_invalid.2.2 "x" ⟨.Identifier, "x", 1⟩
      (by decide)).1

end Rlox
